import Mathlib

/-!
# sysarray_minimal_compare

A shallow embedding of `sysarray_minimal_compare.c`, the bare-metal test driver of the
systolic-array accelerator, and the properties of it that the specification states.

Conventions of the embedding.

* A C `int` is an `Int` reduced by `i32` after every arithmetic operation; a C `unsigned`
  is a `Nat` reduced modulo `2^32`.
* The referent of a pointer is a map from the element index (relative to the pointer) to
  the element stored there, so `p[j]` is `p j`.  Two pointers that do not overlap are two
  independent maps.
* A `for` loop with an `int` counter is `forLoop`: the guard is evaluated on the counter,
  the counter is incremented in `int` arithmetic, and the final counter is returned next
  to the final state so that "the loop left through its guard" can be stated.
* What `main` does to the outside world (register writes, calls, messages) is the list of
  `Event`s it produces.
-/

namespace Sysarray

/-! ## Machine arithmetic -/

/-- Conversion of an integer to a 32-bit C `unsigned`. -/
def u32 (x : Int) : Nat := (x % 4294967296).toNat

/-- Conversion of an integer to a 32-bit two's complement C `int`. -/
def i32 (x : Int) : Int := (x + 2147483648) % 4294967296 - 2147483648

/-- C `for (c = start; cond(c); c++) body(c)` with an `int` counter `c`.  The first
argument after the body is the fuel; the result is the final counter and the final state. -/
def forLoop {σ : Type} (cond : Int → Bool) (body : Int → σ → σ) : Nat → Int → σ → Int × σ
  | 0, c, s => (c, s)
  | fuel + 1, c, s =>
    if cond c then forLoop cond body fuel (i32 (c + 1)) (body c s) else (c, s)

/-! ## Constants of the source file -/

def MAX_PRINTED_ERRORS : Nat := 10

def IsRelu : Int := 1
def BiasShift : Int := 6
def AccumShift : Int := 10
def AccumMul : Int := 93

def MWR : Int := 1
def MDR : Int := 2
def MDW : Int := 3
def START : Int := 4

def Dummy_REG : Nat := 0x00
def SA_START : Nat := 0x04
def SA_CONFIC : Nat := 0x08
def SA_W_RD_BASE : Nat := 0x0C
def SA_D_RD_BASE : Nat := 0x10
def SA_D_WR_BASE : Nat := 0x14

/-- The size of `token_t` and of `native_t`, both `char`. -/
def sizeof_token_t : Nat := 1

/-! ## validate_buf -/

/-- The local state of `validate_buf` together with what it has printed and which
indices of `out` and `gold` it has read. -/
structure VState where
  errors : Nat
  printed : List (Int × Int × Int)
  reads : List Int
  deriving DecidableEq, Repr

/-- The body of the loop of `validate_buf` at counter `j`. -/
def validate_body (out gold : Int → Int) (j : Int) (s : VState) : VState :=
  let val := out j
  if gold j ≠ val then
    let errors := (s.errors + 1) % 4294967296
    { errors := errors
      printed := if errors ≤ MAX_PRINTED_ERRORS then s.printed ++ [(j, val, gold j)]
                 else s.printed
      reads := s.reads ++ [j] }
  else
    { s with reads := s.reads ++ [j] }

/-- What a call of `validate_buf` yields: the `int` it returns, the lines it prints, the
indices it reads, and the value of `j` when the loop is left. -/
structure VResult where
  ret : Int
  printed : List (Int × Int × Int)
  reads : List Int
  exit_j : Int
  deriving DecidableEq, Repr

/-- `validate_buf(out, gold)` for the value `out_len` of the global of that name.  The
guard `j < out_len` compares an `int` with an `unsigned`, so `j` is converted to
`unsigned`; the `unsigned` count is converted to `int` on return. -/
def validate_buf (out_len : Nat) (out gold : Int → Int) : VResult :=
  let r := forLoop (fun j => decide (u32 j < out_len)) (validate_body out gold) out_len 0
    { errors := 0, printed := [], reads := [] }
  { ret := i32 r.2.errors, printed := r.2.printed, reads := r.2.reads, exit_j := r.1 }

/-! ## CPU_multiply and cpu_matmul -/

/-- The innermost loop of `CPU_multiply` for row `i` and column `j`, started with
`sum = 0`: the final `k` and the final `sum`. -/
def CPU_dot_loop (a b : Int → Int) (M_mat N1 i j : Int) : Int × Int :=
  forLoop (fun k => decide (k < M_mat))
    (fun k sum => i32 (sum + i32 (a (i32 (i32 (i * M_mat) + k)) * b (i32 (i32 (k * N1) + j)))))
    M_mat.toNat 0 0

/-- The middle loop of `CPU_multiply` for row `i`: the final `j` and the content of `d`. -/
def CPU_row_loop (a b : Int → Int) (M_mat N1 i : Int) (d : Int → Int) : Int × (Int → Int) :=
  forLoop (fun j => decide (j < N1))
    (fun j d => Function.update d (i32 (i32 (i * N1) + j)) (CPU_dot_loop a b M_mat N1 i j).2)
    N1.toNat 0 d

/-- The outer loop of `CPU_multiply`: the final `i` and the content of `d`. -/
def CPU_multiply_loop (a b : Int → Int) (N0 M_mat N1 : Int) (d : Int → Int) :
    Int × (Int → Int) :=
  forLoop (fun i => decide (i < N0)) (fun i d => (CPU_row_loop a b M_mat N1 i d).2)
    N0.toNat 0 d

/-- `CPU_multiply(a, b, N0, M_mat, N1, d)`: the content of `d` when the call returns, as a
function of the contents of `a`, `b` and `d` when it is made.  `d` overlaps neither `a`
nor `b`, so the stores through `d` leave `a` and `b` as they are. -/
def CPU_multiply (a b : Int → Int) (N0 M_mat N1 : Int) (d : Int → Int) : Int → Int :=
  (CPU_multiply_loop a b N0 M_mat N1 d).2

/-- A loop `for (int i = 0; i < n; i++) m[i] = 1;` of `cpu_matmul`. -/
def fill_ones (n : Int) (m : Int → Int) : Int → Int :=
  (forLoop (fun i => decide (i < n)) (fun i m => Function.update m i 1) n.toNat 0 m).2

/-- `cpu_matmul()`: the content of `output` after the call of `CPU_multiply`, as a function
of what the three freshly allocated blocks hold. -/
def cpu_matmul (mat1 mat2 output : Int → Int) : Int → Int :=
  let N0 : Int := 32
  let N1 : Int := 32
  let M_mat : Int := 32
  let mat1 := fill_ones (i32 (N0 * M_mat)) mat1
  let mat2 := fill_ones (i32 (M_mat * N1)) mat2
  CPU_multiply mat1 mat2 N0 M_mat N1 output

/-! ## main -/

/-- `x + y` where `x` is `unsigned`: `y` is converted and the sum is taken modulo `2^32`. -/
def uadd (x : Nat) (y : Int) : Nat := u32 ((x : Int) + y)

/-- `x * y` in `unsigned` arithmetic. -/
def umul (x y : Nat) : Nat := u32 ((x : Int) * (y : Int))

/-- `x << n` on `int`. -/
def shl (x : Int) (n : Nat) : Int := i32 (x * 2 ^ n)

/-- The local `data` of `main` after the five `+=` that build the configuration word. -/
def config_data : Nat :=
  let data : Nat := 0
  let data := uadd data (i32 (32 - 1))
  let data := uadd data (shl IsRelu 8)
  let data := uadd data (shl BiasShift 16)
  let data := uadd data (shl AccumShift 20)
  let data := uadd data (shl AccumMul 24)
  data

/-- The twelve file-scope `unsigned` variables that `main` sets. -/
structure Layout where
  in_len1 : Nat
  in_len2 : Nat
  in_len3 : Nat
  out_len : Nat
  in_offset1 : Nat
  in_offset2 : Nat
  in_offset3 : Nat
  out_offset : Nat
  in_size1 : Nat
  in_size2 : Nat
  out_size : Nat
  mem_size : Nat
  deriving DecidableEq, Repr

/-- The assignments of `main` under "offsets in data buffer". -/
def main_layout : Layout :=
  let in_len1 := u32 32
  let in_len2 := u32 (i32 (32 * 32))
  let in_len3 := u32 (i32 (32 * 32))
  let out_len := u32 (i32 (32 * 32))
  let in_offset1 := u32 0
  let in_offset2 := uadd in_offset1 in_len1
  let in_offset3 := uadd in_offset2 in_len2
  let out_offset := uadd in_offset3 in_len3
  let in_size1 := umul (uadd in_len1 in_len2) sizeof_token_t
  let in_size2 := umul in_len3 sizeof_token_t
  let out_size := umul out_len sizeof_token_t
  let mem_size := uadd (umul out_offset sizeof_token_t) out_size
  { in_len1 := in_len1, in_len2 := in_len2, in_len3 := in_len3, out_len := out_len,
    in_offset1 := in_offset1, in_offset2 := in_offset2, in_offset3 := in_offset3,
    out_offset := out_offset, in_size1 := in_size1, in_size2 := in_size2,
    out_size := out_size, mem_size := mem_size }

/-- The constants that `main` takes from the platform headers, which are not part of the
source file. -/
structure Platform where
  CSR_REG_OFFSET : Nat
  ACC_COH_RECALL : Nat
  deriving DecidableEq, Repr

/-- The two device handles of `main`. -/
inductive Dev where
  | dev
  | coh_dev
  deriving DecidableEq, Repr

/-- What `main` does, one constructor for each kind of call it makes. -/
inductive Event where
  | aligned_malloc (size : Nat)
  | printf_generate_input
  | init_buf (B_mat W_mat I_mat : Nat)
  | iowrite32 (d : Dev) (offset value : Nat)
  | esp_flush (coherence : Nat)
  | iointerrupt
  | call_validate_buf (out : Nat)
  | printf_mismatch (j val gold : Int)
  | printf_fail
  | printf_pass
  | aligned_free_mem
  | aligned_free_gold
  | call_cpu_matmul
  deriving DecidableEq, Repr

/-- `main`, as the sequence of its events.  `A` is the address that `aligned_malloc`
returns for `mem`; `mem` and `gold` are the contents of the two buffers when
`validate_buf` is called, indexed from the start of each buffer.  Pointers into `mem` are
given by their offset from `mem`. -/
def main (P : Platform) (A : Nat) (mem gold : Int → Int) : List Event :=
  let data := config_data
  let L := main_layout
  let w_rd_base := u32 A
  let d_rd_base := uadd (u32 A) L.in_size1
  let d_wr_base := uadd (uadd (u32 A) L.in_size1) L.in_size2
  let coherence := P.ACC_COH_RECALL
  let v := validate_buf L.out_len (fun j => mem (L.out_offset + j)) gold
  let errors := u32 v.ret
  [ Event.aligned_malloc L.mem_size,
    Event.aligned_malloc L.out_size,
    Event.printf_generate_input,
    Event.init_buf L.in_offset1 L.in_offset2 L.in_offset3,
    Event.iowrite32 Dev.coh_dev (P.CSR_REG_OFFSET * 4) coherence ]
  ++ (if coherence ≠ P.ACC_COH_RECALL then [Event.esp_flush coherence] else [])
  ++ [ Event.iowrite32 Dev.dev SA_CONFIC data,
       Event.iowrite32 Dev.dev SA_W_RD_BASE w_rd_base,
       Event.iowrite32 Dev.dev SA_D_RD_BASE d_rd_base,
       Event.iowrite32 Dev.dev SA_D_WR_BASE d_wr_base,
       Event.iowrite32 Dev.dev SA_START (u32 MDR),
       Event.iointerrupt,
       Event.iowrite32 Dev.dev SA_START (u32 MWR),
       Event.iointerrupt,
       Event.iowrite32 Dev.dev SA_START (u32 START),
       Event.iointerrupt,
       Event.iowrite32 Dev.dev SA_START (u32 MDW),
       Event.iointerrupt,
       Event.call_validate_buf L.out_offset ]
  ++ v.printed.map (fun l => Event.printf_mismatch l.1 l.2.1 l.2.2)
  ++ [ (if errors ≠ 0 then Event.printf_fail else Event.printf_pass),
       Event.aligned_free_mem,
       Event.aligned_free_gold,
       Event.call_cpu_matmul ]

/-! ## Readings of the trace of main -/

/-- The values written to the register at `offset` of the accelerator, in order. -/
def writes_to (offset : Nat) (t : List Event) : List Nat :=
  t.filterMap (fun e =>
    match e with
    | Event.iowrite32 Dev.dev o v => if o = offset then some v else none
    | _ => none)

/-- Whether the event is a write to `SA_START` of the accelerator. -/
def is_start_write : Event → Bool
  | Event.iowrite32 Dev.dev o _ => decide (o = SA_START)
  | _ => false

/-- Whether the event is a write to one of the four configuration registers. -/
def is_config_write : Event → Bool
  | Event.iowrite32 Dev.dev o _ =>
    decide (o = SA_CONFIC ∨ o = SA_W_RD_BASE ∨ o = SA_D_RD_BASE ∨ o = SA_D_WR_BASE)
  | _ => false

/-- Whether the event is a call of `validate_buf`. -/
def is_validate_call : Event → Bool
  | Event.call_validate_buf _ => true
  | _ => false

/-! ## Specification-side notions -/

/-- The number of indices `j < out_len` at which `out` and `gold` differ. -/
def mismatch_count (out_len : Nat) (out gold : Int → Int) : Nat :=
  ((Finset.range out_len).filter (fun j : Nat => out (j : Int) ≠ gold (j : Int))).card

/-- The indices `j < out_len` at which `out` and `gold` differ, in increasing order. -/
def mismatch_indices (out_len : Nat) (out gold : Int → Int) : List Nat :=
  (List.range out_len).filter (fun j : Nat => decide (out (j : Int) ≠ gold (j : Int)))

/-- The entry `(i, j)` of the product of the `N0 × M_mat` matrix `a` and the
`M_mat × N1` matrix `b`, both row-major, in 32-bit wrap-around arithmetic. -/
def matrix_product_entry (a b : Int → Int) (M_mat N1 i j : Int) : Int :=
  i32 (∑ k in Finset.range M_mat.toNat, a (i * M_mat + (k : Int)) * b ((k : Int) * N1 + j))

/-- The counters `n < N` at which the loop of `validate_buf` finds a mismatch; the
buffers are read at `i32 n`. -/
def wrapped_mismatches (out gold : Int → Int) (N : Nat) : List Nat :=
  (List.range N).filter (fun n : Nat => decide (gold (i32 (n : Int)) ≠ out (i32 (n : Int))))

/-! ## Sample inputs -/

/-- A sample output buffer: element `j` holds `j`. -/
def sample_out : Int → Int := fun j => j

/-- A sample golden buffer: it differs from `sample_out` at the indices 2 and 4. -/
def sample_gold : Int → Int := fun j => if j = 2 then 7 else if j = 4 then 1 else j

/-- A buffer of zeros. -/
def all_zero : Int → Int := fun _ => 0

/-- A buffer of ones. -/
def all_one : Int → Int := fun _ => 1

/-- The events of `main` up to and including the call of `validate_buf`. -/
def main_head (P : Platform) (A : Nat) : List Event :=
  [ Event.aligned_malloc 3104,
    Event.aligned_malloc 1024,
    Event.printf_generate_input,
    Event.init_buf 0 32 1056,
    Event.iowrite32 Dev.coh_dev (P.CSR_REG_OFFSET * 4) P.ACC_COH_RECALL,
    Event.iowrite32 Dev.dev SA_CONFIC config_data,
    Event.iowrite32 Dev.dev SA_W_RD_BASE (u32 A),
    Event.iowrite32 Dev.dev SA_D_RD_BASE (uadd (u32 A) 1056),
    Event.iowrite32 Dev.dev SA_D_WR_BASE (uadd (uadd (u32 A) 1056) 1024),
    Event.iowrite32 Dev.dev SA_START 2,
    Event.iointerrupt,
    Event.iowrite32 Dev.dev SA_START 1,
    Event.iointerrupt,
    Event.iowrite32 Dev.dev SA_START 4,
    Event.iointerrupt,
    Event.iowrite32 Dev.dev SA_START 3,
    Event.iointerrupt,
    Event.call_validate_buf 2080 ]

/-- The three classifications of an event that the ordering properties use. -/
def event_kind (e : Event) : Bool × Bool × Bool :=
  (is_start_write e, is_config_write e, is_validate_call e)

/-- Whether `x` lies in the region of `len` elements that starts at `start`. -/
def in_region (start len x : Nat) : Prop := start ≤ x ∧ x < start + len

/-! ## Basic facts of the machine arithmetic -/

theorem i32_of_range (x : Int) (h0 : -2147483648 ≤ x) (h1 : x < 2147483648) : i32 x = x := by
  unfold i32; omega

theorem i32_range (x : Int) : -2147483648 ≤ i32 x ∧ i32 x < 2147483648 := by
  unfold i32; omega

theorem u32_i32_natCast (n : Nat) (h : n < 4294967296) : u32 (i32 (n : Int)) = n := by
  unfold u32 i32; omega

theorem i32_add_i32 (x y : Int) : i32 (x + i32 y) = i32 (x + y) := by
  unfold i32; omega

theorem i32_i32_add (x y : Int) : i32 (i32 x + y) = i32 (x + y) := by
  unfold i32; omega

theorem i32_i32_add_i32 (x y : Int) : i32 (i32 x + i32 y) = i32 (x + y) := by
  unfold i32; omega

/-! ## The generic loop -/

theorem forLoop_range_aux {σ : Type} (cond : Int → Bool) (body : Int → σ → σ) (N : Nat)
    (hT : ∀ n : Nat, n < N → cond (i32 (n : Int)) = true)
    (hF : cond (i32 (N : Int)) = false) :
    ∀ (fuel m : Nat) (s : σ), m ≤ N → N ≤ m + fuel →
      forLoop cond body fuel (i32 (m : Int)) s
        = (i32 (N : Int), (List.range' m (N - m)).foldl (fun s (n : Nat) => body (i32 (n : Int)) s) s) := by
  intro fuel
  induction fuel with
  | zero =>
    intro m s hm hN
    have : m = N := by omega
    subst this
    simp [forLoop]
  | succ fuel ih =>
    intro m s hm hN
    by_cases hmN : m = N
    · subst hmN
      simp [forLoop, hF]
    · have hlt : m < N := by omega
      have hstep : i32 ((m : Int) + 1) = i32 ((m + 1 : Nat) : Int) := by
        push_cast; rfl
      have hlen : N - m = (N - (m + 1)) + 1 := by omega
      rw [forLoop, if_pos (hT m hlt), i32_i32_add, hstep, ih (m + 1) _ (by omega) (by omega),
        hlen, List.range'_succ, List.foldl_cons]

/-- A loop whose guard holds at the counters `0, …, N - 1` and fails at `N` runs its body
at exactly those counters, in that order, and is left through its guard, whenever the fuel
is at least `N`. -/
theorem forLoop_range {σ : Type} (cond : Int → Bool) (body : Int → σ → σ) (N fuel : Nat)
    (hT : ∀ n : Nat, n < N → cond (i32 (n : Int)) = true)
    (hF : cond (i32 (N : Int)) = false) (hfuel : N ≤ fuel) (s : σ) :
    forLoop cond body fuel 0 s
      = (i32 (N : Int), (List.range N).foldl (fun s (n : Nat) => body (i32 (n : Int)) s) s) := by
  have h := forLoop_range_aux cond body N hT hF fuel 0 s (by omega) (by omega)
  have h0 : i32 ((0 : Nat) : Int) = 0 := by decide
  rw [h0] at h
  rw [h, List.range_eq_range']
  simp

/-! ## validate_buf: the loop -/

theorem wrapped_mismatches_succ (out gold : Int → Int) (N : Nat) :
    wrapped_mismatches out gold (N + 1)
      = wrapped_mismatches out gold N
        ++ (if gold (i32 (N : Int)) ≠ out (i32 (N : Int)) then [N] else []) := by
  unfold wrapped_mismatches
  rw [List.range_succ, List.filter_append]
  by_cases h : gold (i32 (N : Int)) = out (i32 (N : Int)) <;> simp [h]

theorem wrapped_mismatches_length_le (out gold : Int → Int) (N : Nat) :
    (wrapped_mismatches out gold N).length ≤ N := by
  unfold wrapped_mismatches
  calc ((List.range N).filter _).length ≤ (List.range N).length := List.length_filter_le _ _
    _ = N := List.length_range N

theorem validate_fold (out gold : Int → Int) (N : Nat) (hN : N < 4294967296) :
    (List.range N).foldl (fun s (n : Nat) => validate_body out gold (i32 (n : Int)) s)
        { errors := 0, printed := [], reads := [] }
      = { errors := (wrapped_mismatches out gold N).length
          printed := ((wrapped_mismatches out gold N).take MAX_PRINTED_ERRORS).map
            (fun n : Nat => (i32 (n : Int), out (i32 (n : Int)), gold (i32 (n : Int))))
          reads := (List.range N).map (fun n : Nat => i32 (n : Int)) } := by
  induction N with
  | zero => simp [wrapped_mismatches]
  | succ N ih =>
    have hlen := wrapped_mismatches_length_le out gold N
    rw [List.range_succ, List.foldl_append, ih (by omega), wrapped_mismatches_succ]
    by_cases h : gold (i32 (N : Int)) = out (i32 (N : Int))
    · simp [validate_body, h]
    · have hmod : ((wrapped_mismatches out gold N).length + 1) % 4294967296
          = (wrapped_mismatches out gold N).length + 1 := Nat.mod_eq_of_lt (by omega)
      simp only [List.foldl_cons, List.foldl_nil, validate_body, ne_eq, h, not_false_eq_true,
        if_true, hmod, List.length_append, List.length_singleton, List.map_append,
        List.map_cons, List.map_nil]
      by_cases hc : (wrapped_mismatches out gold N).length + 1 ≤ MAX_PRINTED_ERRORS
      · rw [if_pos hc, List.take_of_length_le (by omega),
          List.take_of_length_le (by simp; omega)]
        simp
      · rw [if_neg hc, List.take_append_of_le_length (by omega)]

/-- What `validate_buf` yields for every `unsigned` value of `out_len`: the loop is left
through its guard after `out_len` rounds, and round `n` reads the buffers at `i32 n`. -/
theorem validate_buf_eq (out_len : Nat) (out gold : Int → Int) (hlen : out_len < 4294967296) :
    validate_buf out_len out gold
      = { ret := i32 ((wrapped_mismatches out gold out_len).length : Int)
          printed := ((wrapped_mismatches out gold out_len).take MAX_PRINTED_ERRORS).map
            (fun n : Nat => (i32 (n : Int), out (i32 (n : Int)), gold (i32 (n : Int))))
          reads := (List.range out_len).map (fun n : Nat => i32 (n : Int))
          exit_j := i32 (out_len : Int) } := by
  have hT : ∀ n : Nat, n < out_len →
      (fun j : Int => decide (u32 j < out_len)) (i32 (n : Int)) = true := by
    intro n hn
    simp only [decide_eq_true_eq]
    rw [u32_i32_natCast n (by omega)]
    exact hn
  have hF : (fun j : Int => decide (u32 j < out_len)) (i32 (out_len : Int)) = false := by
    simp only [decide_eq_false_iff_not]
    rw [u32_i32_natCast out_len hlen]
    omega
  have h := forLoop_range (fun j : Int => decide (u32 j < out_len)) (validate_body out gold)
    out_len out_len hT hF (le_refl _) { errors := 0, printed := [], reads := [] }
  rw [validate_fold out gold out_len hlen] at h
  unfold validate_buf
  rw [h]

theorem wrapped_mismatches_eq (out_len : Nat) (out gold : Int → Int)
    (hlen : out_len ≤ 2147483648) :
    wrapped_mismatches out gold out_len = mismatch_indices out_len out gold := by
  unfold wrapped_mismatches mismatch_indices
  apply List.filter_congr
  intro n hn
  have hn2 : n < out_len := List.mem_range.mp hn
  rw [i32_of_range (n : Int) (by omega) (by omega)]
  by_cases h : out (n : Int) = gold (n : Int)
  · simp [h]
  · have h2 : ¬ gold (n : Int) = out (n : Int) := fun e => h e.symm
    simp [h, h2]

theorem mismatch_indices_length (out_len : Nat) (out gold : Int → Int) :
    (mismatch_indices out_len out gold).length = mismatch_count out_len out gold := by
  unfold mismatch_indices mismatch_count
  rfl

theorem mismatch_count_le (out_len : Nat) (out gold : Int → Int) :
    mismatch_count out_len out gold ≤ out_len := by
  unfold mismatch_count
  calc ((Finset.range out_len).filter _).card ≤ (Finset.range out_len).card :=
        Finset.card_filter_le _ _
    _ = out_len := Finset.card_range out_len

/-- What `validate_buf` yields when `out_len` is at most `2^31`: the buffers are read at
`0, …, out_len - 1`. -/
theorem validate_buf_small (out_len : Nat) (out gold : Int → Int) (hlen : out_len ≤ 2147483648) :
    validate_buf out_len out gold
      = { ret := i32 (mismatch_count out_len out gold : Int)
          printed := ((mismatch_indices out_len out gold).take MAX_PRINTED_ERRORS).map
            (fun n : Nat => ((n : Int), out (n : Int), gold (n : Int)))
          reads := (List.range out_len).map (fun n : Nat => (n : Int))
          exit_j := i32 (out_len : Int) } := by
  rw [validate_buf_eq out_len out gold (by omega), wrapped_mismatches_eq out_len out gold hlen,
    mismatch_indices_length]
  have hidx : ∀ n : Nat, n < out_len → i32 (n : Int) = (n : Int) := fun n hn =>
    i32_of_range (n : Int) (by omega) (by omega)
  have hp : ((mismatch_indices out_len out gold).take MAX_PRINTED_ERRORS).map
        (fun n : Nat => (i32 (n : Int), out (i32 (n : Int)), gold (i32 (n : Int))))
      = ((mismatch_indices out_len out gold).take MAX_PRINTED_ERRORS).map
        (fun n : Nat => ((n : Int), out (n : Int), gold (n : Int))) := by
    apply List.map_congr_left
    intro n hn
    have hn2 : n < out_len :=
      List.mem_range.mp (List.mem_of_mem_filter (List.mem_of_mem_take hn))
    rw [hidx n hn2]
  have hr : (List.range out_len).map (fun n : Nat => i32 (n : Int))
      = (List.range out_len).map (fun n : Nat => (n : Int)) := by
    apply List.map_congr_left
    intro n hn
    rw [hidx n (List.mem_range.mp hn)]
  rw [hp, hr]

theorem mismatch_count_of_all_differ (out_len : Nat) (out gold : Int → Int)
    (h : ∀ j : Nat, j < out_len → out (j : Int) ≠ gold (j : Int)) :
    mismatch_count out_len out gold = out_len := by
  unfold mismatch_count
  rw [Finset.filter_true_of_mem (fun j hj => h j (Finset.mem_range.mp hj)), Finset.card_range]

theorem mismatch_count_congr (out_len : Nat) (out gold out2 gold2 : Int → Int)
    (h : ∀ j : Nat, j < out_len → out2 (j : Int) = out (j : Int) ∧ gold2 (j : Int) = gold (j : Int)) :
    mismatch_count out_len out2 gold2 = mismatch_count out_len out gold := by
  unfold mismatch_count
  congr 1
  apply Finset.filter_congr
  intro j hj
  have hj2 := h j (Finset.mem_range.mp hj)
  rw [hj2.1, hj2.2]

theorem mem_mismatch_indices (out_len : Nat) (out gold : Int → Int) (j : Nat) :
    j ∈ mismatch_indices out_len out gold ↔ j < out_len ∧ out (j : Int) ≠ gold (j : Int) := by
  unfold mismatch_indices
  simp [List.mem_filter]

theorem mismatch_indices_increasing (out_len : Nat) (out gold : Int → Int) :
    List.Pairwise (fun x y : Nat => x < y) (mismatch_indices out_len out gold) := by
  unfold mismatch_indices
  exact List.Pairwise.sublist (List.filter_sublist _) (List.pairwise_lt_range out_len)

/-! ## C2 -/

/-- C2, counterexample: with `out_len = 2^31` and two buffers that differ everywhere, the
number of mismatching indices is `2^31`, and `validate_buf` returns `-2^31`. -/
theorem validate_buf_return_wraps :
    mismatch_count 2147483648 (fun _ => 0) (fun _ => 1) = 2147483648
    ∧ (validate_buf 2147483648 (fun _ => 0) (fun _ => 1)).ret = -2147483648 := by
  have hd : ∀ j : Nat, j < 2147483648 →
      (fun _ : Int => (0 : Int)) (j : Int) ≠ (fun _ : Int => (1 : Int)) (j : Int) :=
    fun _ _ => by norm_num
  have hc : mismatch_count 2147483648 (fun _ => 0) (fun _ => 1) = 2147483648 :=
    mismatch_count_of_all_differ 2147483648 (fun _ => 0) (fun _ => 1) hd
  refine ⟨hc, ?_⟩
  rw [validate_buf_small 2147483648 (fun _ => 0) (fun _ => 1) (le_refl _), hc]
  decide

/-- C2, amended: for every `out_len` up to `INT_MAX = 2^31 - 1` and every pair of buffers,
`validate_buf` leaves its loop through the guard and returns exactly the number of indices
`j < out_len` with `out[j] != gold[j]`; the result is at most `out_len`, and it is the
same for any two pairs of buffers that agree on the indices below `out_len`. -/
theorem validate_buf_counts_mismatches (out_len : Nat) (out gold : Int → Int)
    (hlen : out_len ≤ 2147483647) :
    (validate_buf out_len out gold).ret = (mismatch_count out_len out gold : Int)
    ∧ (validate_buf out_len out gold).ret ≤ (out_len : Int)
    ∧ ¬ (u32 (validate_buf out_len out gold).exit_j < out_len)
    ∧ ∀ out2 gold2 : Int → Int,
        (∀ j : Nat, j < out_len →
          out2 (j : Int) = out (j : Int) ∧ gold2 (j : Int) = gold (j : Int)) →
        (validate_buf out_len out2 gold2).ret = (validate_buf out_len out gold).ret := by
  have hle := mismatch_count_le out_len out gold
  have hret : ∀ o g : Int → Int,
      (validate_buf out_len o g).ret = (mismatch_count out_len o g : Int) := by
    intro o g
    have hle2 := mismatch_count_le out_len o g
    rw [validate_buf_small out_len o g (by omega)]
    exact i32_of_range _ (by omega) (by omega)
  refine ⟨hret out gold, ?_, ?_, ?_⟩
  · rw [hret out gold]; omega
  · rw [validate_buf_small out_len out gold (by omega)]
    simp only []
    rw [u32_i32_natCast out_len (by omega)]
    omega
  · intro out2 gold2 h
    rw [hret out2 gold2, hret out gold, mismatch_count_congr out_len out gold out2 gold2 h]

/-- C2, the amended claim at five elements of which two differ. -/
theorem validate_buf_counts_mismatches_witness :
    (5 : Nat) ≤ 2147483647
    ∧ (validate_buf 5 sample_out sample_gold).ret
        = (mismatch_count 5 sample_out sample_gold : Int)
    ∧ (validate_buf 5 sample_out sample_gold).ret ≤ ((5 : Nat) : Int)
    ∧ ¬ (u32 (validate_buf 5 sample_out sample_gold).exit_j < 5)
    ∧ ∀ out2 gold2 : Int → Int,
        (∀ j : Nat, j < 5 →
          out2 (j : Int) = sample_out (j : Int) ∧ gold2 (j : Int) = sample_gold (j : Int)) →
        (validate_buf 5 out2 gold2).ret = (validate_buf 5 sample_out sample_gold).ret :=
  ⟨by decide, validate_buf_counts_mismatches 5 sample_out sample_gold (by decide)⟩

/-! ## C10 -/

/-- C10, counterexample: with `out_len = 2^31` and two buffers that differ everywhere, the
value that `validate_buf` returns is not the number `e` of mismatching indices. -/
theorem validate_buf_returned_count_wraps :
    (validate_buf 2147483648 all_one all_zero).ret
      ≠ (mismatch_count 2147483648 all_one all_zero : Int) := by
  have hd : ∀ j : Nat, j < 2147483648 → all_one (j : Int) ≠ all_zero (j : Int) :=
    fun _ _ => by simp [all_one, all_zero]
  have hc : mismatch_count 2147483648 all_one all_zero = 2147483648 :=
    mismatch_count_of_all_differ 2147483648 all_one all_zero hd
  rw [validate_buf_small 2147483648 all_one all_zero (le_refl _), hc]
  decide

/-- C10, amended: for every `out_len` up to `INT_MAX = 2^31 - 1` and every pair of buffers,
with `e` the number of mismatching indices below `out_len`, `validate_buf` prints exactly
`min(e, MAX_PRINTED_ERRORS) = min(e, 10)` lines; they are the lines `(j, out[j], gold[j])`
of the first `min(e, 10)` mismatching indices in increasing order; and the value returned
is `e`, not the capped number. -/
theorem validate_buf_print_cap (out_len : Nat) (out gold : Int → Int)
    (hlen : out_len ≤ 2147483647) :
    (validate_buf out_len out gold).printed
        = ((mismatch_indices out_len out gold).take MAX_PRINTED_ERRORS).map
            (fun j : Nat => ((j : Int), out (j : Int), gold (j : Int)))
    ∧ (validate_buf out_len out gold).printed.length
        = min (mismatch_count out_len out gold) MAX_PRINTED_ERRORS
    ∧ MAX_PRINTED_ERRORS = 10
    ∧ List.Pairwise (fun x y : Nat => x < y) (mismatch_indices out_len out gold)
    ∧ (∀ j : Nat, j ∈ mismatch_indices out_len out gold
        ↔ j < out_len ∧ out (j : Int) ≠ gold (j : Int))
    ∧ (validate_buf out_len out gold).ret = (mismatch_count out_len out gold : Int) := by
  have hle := mismatch_count_le out_len out gold
  have hv := validate_buf_small out_len out gold (by omega)
  refine ⟨by rw [hv], ?_, rfl, mismatch_indices_increasing out_len out gold,
    mem_mismatch_indices out_len out gold, ?_⟩
  · rw [hv]
    simp only [List.length_map, List.length_take, mismatch_indices_length]
    exact Nat.min_comm _ _
  · rw [hv]
    exact i32_of_range _ (by omega) (by omega)

/-- C10, the amended claim at twelve elements that all differ: ten lines are printed. -/
theorem validate_buf_print_cap_witness :
    (12 : Nat) ≤ 2147483647
    ∧ (validate_buf 12 all_zero all_one).printed.length = 10
    ∧ (validate_buf 12 all_zero all_one).ret = 12
    ∧ (validate_buf 12 all_zero all_one).printed
        = ((mismatch_indices 12 all_zero all_one).take MAX_PRINTED_ERRORS).map
            (fun j : Nat => ((j : Int), all_zero (j : Int), all_one (j : Int))) :=
  ⟨by decide, by decide, by decide,
    (validate_buf_print_cap 12 all_zero all_one (by decide)).1⟩

/-! ## main: the layout and the trace -/

theorem main_layout_eq :
    main_layout
      = { in_len1 := 32, in_len2 := 1024, in_len3 := 1024, out_len := 1024,
          in_offset1 := 0, in_offset2 := 32, in_offset3 := 1056, out_offset := 2080,
          in_size1 := 1056, in_size2 := 1024, out_size := 1024, mem_size := 3104 } := by
  decide

theorem config_data_eq : config_data = 1571160351 := by decide

/-- The events of `main` with the layout evaluated and the branch on `coherence`
resolved. -/
theorem main_eq (P : Platform) (A : Nat) (mem gold : Int → Int) :
    main P A mem gold
      = [ Event.aligned_malloc 3104,
          Event.aligned_malloc 1024,
          Event.printf_generate_input,
          Event.init_buf 0 32 1056,
          Event.iowrite32 Dev.coh_dev (P.CSR_REG_OFFSET * 4) P.ACC_COH_RECALL,
          Event.iowrite32 Dev.dev SA_CONFIC config_data,
          Event.iowrite32 Dev.dev SA_W_RD_BASE (u32 A),
          Event.iowrite32 Dev.dev SA_D_RD_BASE (uadd (u32 A) 1056),
          Event.iowrite32 Dev.dev SA_D_WR_BASE (uadd (uadd (u32 A) 1056) 1024),
          Event.iowrite32 Dev.dev SA_START 2,
          Event.iointerrupt,
          Event.iowrite32 Dev.dev SA_START 1,
          Event.iointerrupt,
          Event.iowrite32 Dev.dev SA_START 4,
          Event.iointerrupt,
          Event.iowrite32 Dev.dev SA_START 3,
          Event.iointerrupt,
          Event.call_validate_buf 2080 ]
        ++ (validate_buf 1024 (fun j => mem (2080 + j)) gold).printed.map
            (fun l => Event.printf_mismatch l.1 l.2.1 l.2.2)
        ++ [ (if u32 (validate_buf 1024 (fun j => mem (2080 + j)) gold).ret ≠ 0
                then Event.printf_fail else Event.printf_pass),
             Event.aligned_free_mem,
             Event.aligned_free_gold,
             Event.call_cpu_matmul ] := by
  have h2 : u32 MDR = 2 := by decide
  have h1 : u32 MWR = 1 := by decide
  have h4 : u32 START = 4 := by decide
  have h3 : u32 MDW = 3 := by decide
  unfold main
  simp only [main_layout_eq, h1, h2, h3, h4, ne_eq, not_true_eq_false, if_false,
    List.append_nil, Nat.cast_ofNat]
  rfl

theorem writes_to_append (r : Nat) (s t : List Event) :
    writes_to r (s ++ t) = writes_to r s ++ writes_to r t := by
  unfold writes_to
  exact List.filterMap_append s t _

theorem writes_to_mismatch_lines (r : Nat) (l : List (Int × Int × Int)) :
    writes_to r (l.map (fun l => Event.printf_mismatch l.1 l.2.1 l.2.2)) = [] := by
  induction l with
  | nil => rfl
  | cons x l ih =>
    unfold writes_to at ih ⊢
    rw [List.map_cons, List.filterMap_cons]
    exact ih

theorem writes_to_verdict (r : Nat) (c : Prop) [Decidable c] (t : List Event)
    (ht : writes_to r t = []) :
    writes_to r ((if c then Event.printf_fail else Event.printf_pass) :: t) = [] := by
  unfold writes_to at ht ⊢
  by_cases h : c
  · rw [if_pos h, List.filterMap_cons]; exact ht
  · rw [if_neg h, List.filterMap_cons]; exact ht

/-- The values that `main` writes to the register at offset `r` of the accelerator. -/
theorem writes_to_main (r : Nat) (P : Platform) (A : Nat) (mem gold : Int → Int) :
    writes_to r (main P A mem gold)
      = writes_to r
        [ Event.iowrite32 Dev.dev SA_CONFIC config_data,
          Event.iowrite32 Dev.dev SA_W_RD_BASE (u32 A),
          Event.iowrite32 Dev.dev SA_D_RD_BASE (uadd (u32 A) 1056),
          Event.iowrite32 Dev.dev SA_D_WR_BASE (uadd (uadd (u32 A) 1056) 1024),
          Event.iowrite32 Dev.dev SA_START 2,
          Event.iowrite32 Dev.dev SA_START 1,
          Event.iowrite32 Dev.dev SA_START 4,
          Event.iowrite32 Dev.dev SA_START 3 ] := by
  have hv := writes_to_verdict r
    (u32 (validate_buf 1024 (fun j => mem (2080 + j)) gold).ret ≠ 0)
    [Event.aligned_free_mem, Event.aligned_free_gold, Event.call_cpu_matmul] rfl
  rw [main_eq, writes_to_append, writes_to_append, writes_to_mismatch_lines, hv,
    List.append_nil, List.append_nil]
  rfl

theorem main_start_writes (P : Platform) (A : Nat) (mem gold : Int → Int) :
    writes_to SA_START (main P A mem gold) = [2, 1, 4, 3] := by
  rw [writes_to_main]; rfl

/-! ## C4 -/

/-- C4, counterexample: in a run of `main` the values written to `SA_START` are not
`[MWR, MDR, START, MDW] = [1, 2, 4, 3]`. -/
theorem main_start_sequence_not_weight_first :
    writes_to SA_START (main { CSR_REG_OFFSET := 0, ACC_COH_RECALL := 0 } 0 all_zero all_zero)
      ≠ [u32 MWR, u32 MDR, u32 START, u32 MDW] := by
  rw [main_start_writes]
  decide

/-- C4, amended: `main` issues exactly four writes to `SA_START`, and they are, in this
order, input load (`MDR = 2`), weight load (`MWR = 1`), compute (`START = 4`) and output
write (`MDW = 3`): the values written are `[MDR, MWR, START, MDW] = [2, 1, 4, 3]`. -/
theorem main_start_sequence (P : Platform) (A : Nat) (mem gold : Int → Int) :
    writes_to SA_START (main P A mem gold) = [u32 MDR, u32 MWR, u32 START, u32 MDW]
    ∧ [u32 MDR, u32 MWR, u32 START, u32 MDW] = [2, 1, 4, 3]
    ∧ (writes_to SA_START (main P A mem gold)).length = 4 := by
  rw [main_start_writes]
  exact ⟨by decide, by decide, rfl⟩

/-! ## main: the order of the events -/

theorem verdict_kind (c : Prop) [Decidable c] :
    event_kind (if c then Event.printf_fail else Event.printf_pass) = (false, false, false) := by
  by_cases h : c
  · rw [if_pos h]; rfl
  · rw [if_neg h]; rfl

theorem pairwise_kinds_inert (R : Bool × Bool × Bool → Bool × Bool × Bool → Prop)
    (hR : ∀ k, R k (false, false, false)) (t : List Event)
    (ht : ∀ e ∈ t, event_kind e = (false, false, false)) :
    List.Pairwise (fun x y => R (event_kind x) (event_kind y)) t := by
  induction t with
  | nil => exact List.Pairwise.nil
  | cons x t ih =>
    refine List.Pairwise.cons ?_ (ih fun e he => ht e (List.mem_cons_of_mem x he))
    intro y hy
    rw [ht y (List.mem_cons_of_mem x hy)]
    exact hR _

/-- The events of `main` after the call of `validate_buf` are neither register writes nor
calls of `validate_buf`. -/
theorem main_split (P : Platform) (A : Nat) (mem gold : Int → Int) :
    ∃ tail : List Event, main P A mem gold = main_head P A ++ tail
      ∧ ∀ e ∈ tail, event_kind e = (false, false, false) := by
  refine ⟨(validate_buf 1024 (fun j => mem (2080 + j)) gold).printed.map
            (fun l => Event.printf_mismatch l.1 l.2.1 l.2.2)
        ++ [ (if u32 (validate_buf 1024 (fun j => mem (2080 + j)) gold).ret ≠ 0
                then Event.printf_fail else Event.printf_pass),
             Event.aligned_free_mem, Event.aligned_free_gold, Event.call_cpu_matmul ],
    ?_, ?_⟩
  · rw [main_eq, List.append_assoc]; rfl
  · intro e he
    rcases List.mem_append.mp he with h | h
    · obtain ⟨l, _, rfl⟩ := List.mem_map.mp h
      rfl
    · simp only [List.mem_cons, List.mem_singleton, List.not_mem_nil, or_false] at h
      rcases h with h | h | h | h
      · rw [h]; exact verdict_kind _
      · rw [h]; rfl
      · rw [h]; rfl
      · rw [h]; rfl

theorem main_head_kinds (P : Platform) (A : Nat) :
    (main_head P A).map event_kind
      = [ (false, false, false), (false, false, false), (false, false, false),
          (false, false, false), (false, false, false),
          (false, true, false), (false, true, false), (false, true, false),
          (false, true, false),
          (true, false, false), (false, false, false), (true, false, false),
          (false, false, false), (true, false, false), (false, false, false),
          (true, false, false), (false, false, false), (false, false, true) ] := rfl

/-- An ordering property of the kinds of events holds of `main` when it holds of the
events up to the call of `validate_buf` and is indifferent to the events after it. -/
theorem pairwise_kinds_main (R : Bool × Bool × Bool → Bool × Bool × Bool → Prop)
    (hR : ∀ k, R k (false, false, false))
    (hhead : List.Pairwise R
      [ (false, false, false), (false, false, false), (false, false, false),
        (false, false, false), (false, false, false),
        (false, true, false), (false, true, false), (false, true, false),
        (false, true, false),
        (true, false, false), (false, false, false), (true, false, false),
        (false, false, false), (true, false, false), (false, false, false),
        (true, false, false), (false, false, false), (false, false, true) ])
    (P : Platform) (A : Nat) (mem gold : Int → Int) :
    List.Pairwise (fun x y => R (event_kind x) (event_kind y)) (main P A mem gold) := by
  obtain ⟨tail, hmain, htail⟩ := main_split P A mem gold
  rw [hmain, List.pairwise_append]
  refine ⟨?_, ?_, ?_⟩
  · rw [← main_head_kinds P A, List.pairwise_map] at hhead
    exact hhead
  · exact pairwise_kinds_inert R hR tail htail
  · intro x _ y hy
    rw [htail y hy]
    exact hR _

theorem filter_kind_main (p : Event → Bool) (hp : ∀ e, event_kind e = (false, false, false) → p e = false)
    (P : Platform) (A : Nat) (mem gold : Int → Int) :
    (main P A mem gold).filter p = (main_head P A).filter p := by
  obtain ⟨tail, hmain, htail⟩ := main_split P A mem gold
  rw [hmain, List.filter_append]
  have : tail.filter p = [] := by
    rw [List.filter_eq_nil_iff]
    intro e he
    rw [hp e (htail e he)]
    simp
  rw [this, List.append_nil]

/-! ## C8 -/

/-- C8: in the events of one run of `main`, each of `SA_CONFIC`, `SA_W_RD_BASE`,
`SA_D_RD_BASE` and `SA_D_WR_BASE` is written exactly once and `SA_START` four times; all
four configuration writes come before the first write to `SA_START` and no configuration
register is written after a write to `SA_START`; and `validate_buf` is called once, after
all four writes to `SA_START`, with no write to `SA_START` after the call. -/
theorem main_configures_before_start (P : Platform) (A : Nat) (mem gold : Int → Int) :
    (writes_to SA_CONFIC (main P A mem gold)).length = 1
    ∧ (writes_to SA_W_RD_BASE (main P A mem gold)).length = 1
    ∧ (writes_to SA_D_RD_BASE (main P A mem gold)).length = 1
    ∧ (writes_to SA_D_WR_BASE (main P A mem gold)).length = 1
    ∧ ((main P A mem gold).filter is_config_write).length = 4
    ∧ (writes_to SA_START (main P A mem gold)).length = 4
    ∧ ((main P A mem gold).filter is_start_write).length = 4
    ∧ ((main P A mem gold).filter is_validate_call).length = 1
    ∧ (((main P A mem gold).takeWhile (fun e => !is_start_write e)).filter
          is_config_write).length = 4
    ∧ (((main P A mem gold).takeWhile (fun e => !is_validate_call e)).filter
          is_start_write).length = 4
    ∧ List.Pairwise (fun x y => ¬ (is_start_write x = true ∧ is_config_write y = true))
        (main P A mem gold)
    ∧ List.Pairwise (fun x y => ¬ (is_validate_call x = true ∧ is_start_write y = true))
        (main P A mem gold) := by
  refine ⟨?_, ?_, ?_, ?_, ?_, ?_, ?_, ?_, ?_, ?_, ?_, ?_⟩
  · rw [writes_to_main]; rfl
  · rw [writes_to_main]; rfl
  · rw [writes_to_main]; rfl
  · rw [writes_to_main]; rfl
  · rw [filter_kind_main is_config_write (fun e he => congrArg (fun k => k.2.1) he)]; rfl
  · rw [writes_to_main]; rfl
  · rw [filter_kind_main is_start_write (fun e he => congrArg (fun k => k.1) he)]; rfl
  · rw [filter_kind_main is_validate_call (fun e he => congrArg (fun k => k.2.2) he)]; rfl
  · obtain ⟨tail, hmain, _⟩ := main_split P A mem gold
    rw [hmain]; rfl
  · obtain ⟨tail, hmain, _⟩ := main_split P A mem gold
    rw [hmain]; rfl
  · exact pairwise_kinds_main (fun a b => ¬ (a.1 = true ∧ b.2.1 = true))
      (fun _ h => Bool.false_ne_true h.2) (by decide) P A mem gold
  · exact pairwise_kinds_main (fun a b => ¬ (a.2.2 = true ∧ b.1 = true))
      (fun _ h => Bool.false_ne_true h.2) (by decide) P A mem gold

/-! ## C5 -/

/-- C5: the four regions of the buffer laid out by `main` (bias, weight, activation,
output) start at 0, 32, 1056 and 2080, each starts where the one before it ends, the last
ends at `mem_size = in_size1 + in_size2 + out_size = 3104`, every index below `mem_size`
lies in exactly one of them and no other index lies in any, and no step of the
computation leaves the range of its type. -/
theorem main_layout_tiles :
    main_layout.in_offset1 = 0 ∧ main_layout.in_offset2 = 32
    ∧ main_layout.in_offset3 = 1056 ∧ main_layout.out_offset = 2080
    ∧ main_layout.mem_size = 3104
    ∧ main_layout.mem_size
        = main_layout.in_size1 + main_layout.in_size2 + main_layout.out_size
    ∧ main_layout.in_offset2 = main_layout.in_offset1 + main_layout.in_len1
    ∧ main_layout.in_offset3 = main_layout.in_offset2 + main_layout.in_len2
    ∧ main_layout.out_offset = main_layout.in_offset3 + main_layout.in_len3
    ∧ main_layout.mem_size = main_layout.out_offset + main_layout.out_len
    ∧ (∀ x : Nat, x < main_layout.mem_size ↔
        (in_region main_layout.in_offset1 main_layout.in_len1 x
          ∨ in_region main_layout.in_offset2 main_layout.in_len2 x
          ∨ in_region main_layout.in_offset3 main_layout.in_len3 x
          ∨ in_region main_layout.out_offset main_layout.out_len x))
    ∧ (∀ x : Nat,
        ¬ (in_region main_layout.in_offset1 main_layout.in_len1 x
            ∧ in_region main_layout.in_offset2 main_layout.in_len2 x)
        ∧ ¬ (in_region main_layout.in_offset1 main_layout.in_len1 x
            ∧ in_region main_layout.in_offset3 main_layout.in_len3 x)
        ∧ ¬ (in_region main_layout.in_offset1 main_layout.in_len1 x
            ∧ in_region main_layout.out_offset main_layout.out_len x)
        ∧ ¬ (in_region main_layout.in_offset2 main_layout.in_len2 x
            ∧ in_region main_layout.in_offset3 main_layout.in_len3 x)
        ∧ ¬ (in_region main_layout.in_offset2 main_layout.in_len2 x
            ∧ in_region main_layout.out_offset main_layout.out_len x)
        ∧ ¬ (in_region main_layout.in_offset3 main_layout.in_len3 x
            ∧ in_region main_layout.out_offset main_layout.out_len x))
    ∧ ((32 : Int) * 32 < 2147483648
        ∧ main_layout.in_offset1 + main_layout.in_len1 < 4294967296
        ∧ main_layout.in_offset2 + main_layout.in_len2 < 4294967296
        ∧ main_layout.in_offset3 + main_layout.in_len3 < 4294967296
        ∧ (main_layout.in_len1 + main_layout.in_len2) * sizeof_token_t < 4294967296
        ∧ main_layout.in_len3 * sizeof_token_t < 4294967296
        ∧ main_layout.out_len * sizeof_token_t < 4294967296
        ∧ main_layout.out_offset * sizeof_token_t + main_layout.out_size < 4294967296) := by
  refine ⟨by decide, by decide, by decide, by decide, by decide, by decide, by decide,
    by decide, by decide, by decide, ?_, ?_, by decide⟩
  · intro x
    rw [main_layout_eq]
    simp only [in_region]
    omega
  · intro x
    rw [main_layout_eq]
    simp only [in_region]
    omega

/-! ## validate_buf: the indices read -/

theorem validate_buf_reads (out_len : Nat) (out gold : Int → Int)
    (hlen : out_len ≤ 2147483648) :
    (validate_buf out_len out gold).reads = (List.range out_len).map (fun n : Nat => (n : Int)) := by
  rw [validate_buf_small out_len out gold hlen]

theorem validate_buf_reads_mem (out_len : Nat) (out gold : Int → Int)
    (hlen : out_len ≤ 2147483648) (j : Int) (hj : j ∈ (validate_buf out_len out gold).reads) :
    ∃ n : Nat, n < out_len ∧ j = (n : Int) := by
  rw [validate_buf_reads out_len out gold hlen] at hj
  obtain ⟨n, hn, rfl⟩ := List.mem_map.mp hj
  exact ⟨n, List.mem_range.mp hn, rfl⟩

/-! ## C9 -/

/-- C9: with the sizes computed in `main` (`mem_size = 3104`, `out_size = 1024`,
`out_len = 1024`), every index `j` that `validate_buf(&mem[out_offset], gold)` reads is
non-negative and satisfies `out_offset + j < mem_size` and `j < out_size`; and each region
start passed to `init_buf` plus the length of its region is at most `mem_size`. -/
theorem main_validation_in_bounds (mem gold : Int → Int) :
    main_layout.mem_size = 3104 ∧ main_layout.out_size = 1024 ∧ main_layout.out_len = 1024
    ∧ (∀ j : Int,
        j ∈ (validate_buf main_layout.out_len
              (fun j => mem (main_layout.out_offset + j)) gold).reads →
          0 ≤ j ∧ (main_layout.out_offset : Int) + j < main_layout.mem_size
            ∧ j < main_layout.out_size)
    ∧ (validate_buf main_layout.out_len
          (fun j => mem (main_layout.out_offset + j)) gold).reads
        = (List.range main_layout.out_len).map (fun n : Nat => (n : Int))
    ∧ main_layout.in_offset1 + main_layout.in_len1 ≤ main_layout.mem_size
    ∧ main_layout.in_offset2 + main_layout.in_len2 ≤ main_layout.mem_size
    ∧ main_layout.in_offset3 + main_layout.in_len3 ≤ main_layout.mem_size := by
  have hlen : main_layout.out_len ≤ 2147483648 := by decide
  have h1 : main_layout.out_len = 1024 := by decide
  have h2 : main_layout.out_offset = 2080 := by decide
  have h3 : main_layout.mem_size = 3104 := by decide
  have h4 : main_layout.out_size = 1024 := by decide
  refine ⟨h3, h4, h1, ?_, validate_buf_reads _ _ _ hlen, by decide, by decide, by decide⟩
  intro j hj
  obtain ⟨n, hn, rfl⟩ := validate_buf_reads_mem _ _ _ hlen j hj
  omega

/-! ## C6 -/

theorem u32_natCast (A : Nat) : u32 (A : Int) = A % 4294967296 := by
  unfold u32; omega

theorem uadd_u32 (A k : Nat) : uadd (u32 (A : Int)) (k : Int) = (A + k) % 4294967296 := by
  unfold uadd u32; omega

theorem uadd_uadd_u32 (A k l : Nat) :
    uadd (uadd (u32 (A : Int)) (k : Int)) (l : Int) = (A + (k + l)) % 4294967296 := by
  unfold uadd u32; omega

theorem mem_main_of_mem_head (P : Platform) (A : Nat) (mem gold : Int → Int) (e : Event)
    (he : e ∈ main_head P A) : e ∈ main P A mem gold := by
  obtain ⟨tail, hmain, _⟩ := main_split P A mem gold
  rw [hmain]
  exact List.mem_append_left tail he

/-- C6: for every address `A` of `mem`, the value written to `SA_W_RD_BASE` is
`A + in_offset1`, the value written to `SA_D_RD_BASE` is `A + in_offset3`, the start of
the activation region passed to `init_buf`, and the value written to `SA_D_WR_BASE` is
`A + out_offset`, the address that `validate_buf` is given, all modulo `2^32`; and
`in_size1 = in_offset3` and `in_size1 + in_size2 = out_offset`. -/
theorem main_base_addresses (P : Platform) (A : Nat) (mem gold : Int → Int) :
    writes_to SA_W_RD_BASE (main P A mem gold) = [(A + main_layout.in_offset1) % 4294967296]
    ∧ writes_to SA_D_RD_BASE (main P A mem gold)
        = [(A + main_layout.in_offset3) % 4294967296]
    ∧ writes_to SA_D_WR_BASE (main P A mem gold)
        = [(A + main_layout.out_offset) % 4294967296]
    ∧ main_layout.in_size1 = main_layout.in_offset3
    ∧ main_layout.in_size1 + main_layout.in_size2 = main_layout.out_offset
    ∧ Event.init_buf main_layout.in_offset1 main_layout.in_offset2 main_layout.in_offset3
        ∈ main P A mem gold
    ∧ Event.call_validate_buf main_layout.out_offset ∈ main P A mem gold := by
  have h1 : main_layout.in_offset1 = 0 := by decide
  have h2 : main_layout.in_offset2 = 32 := by decide
  have h3 : main_layout.in_offset3 = 1056 := by decide
  have h4 : main_layout.out_offset = 2080 := by decide
  have hw : writes_to SA_W_RD_BASE (main P A mem gold) = [u32 (A : Int)] := by
    rw [writes_to_main]; rfl
  have hd : writes_to SA_D_RD_BASE (main P A mem gold)
      = [uadd (u32 (A : Int)) ((1056 : Nat) : Int)] := by
    rw [writes_to_main]; rfl
  have ho : writes_to SA_D_WR_BASE (main P A mem gold)
      = [uadd (uadd (u32 (A : Int)) ((1056 : Nat) : Int)) ((1024 : Nat) : Int)] := by
    rw [writes_to_main]; rfl
  rw [hw, hd, ho, uadd_uadd_u32, uadd_u32, u32_natCast, h1, h2, h3, h4]
  refine ⟨rfl, rfl, rfl, by decide, by decide, ?_, ?_⟩
  · apply mem_main_of_mem_head
    simp [main_head]
  · apply mem_main_of_mem_head
    simp [main_head]

/-! ## C7 -/

/-- C7: the word written to `SA_CONFIC` is the sum of `32 - 1`, `IsRelu << 8`,
`BiasShift << 16`, `AccumShift << 20` and `AccumMul << 24`; the sum equals the bitwise OR
of the five terms and is `0x5DA6011F = 1571160351`; no shift and no intermediate sum
reaches `2^31`; and the five fields are read back from it by shifting and masking. -/
theorem config_word_fields (P : Platform) (A : Nat) (mem gold : Int → Int) :
    writes_to SA_CONFIC (main P A mem gold) = [config_data]
    ∧ config_data = 1571160351
    ∧ config_data = 0x5DA6011F
    ∧ (config_data : Int)
        = (32 - 1) + IsRelu * 2 ^ 8 + BiasShift * 2 ^ 16 + AccumShift * 2 ^ 20
          + AccumMul * 2 ^ 24
    ∧ config_data
        = ((32 - 1) ||| (IsRelu.toNat <<< 8) ||| (BiasShift.toNat <<< 16)
            ||| (AccumShift.toNat <<< 20) ||| (AccumMul.toNat <<< 24))
    ∧ (IsRelu * 2 ^ 8 < 2147483648 ∧ BiasShift * 2 ^ 16 < 2147483648
        ∧ AccumShift * 2 ^ 20 < 2147483648 ∧ AccumMul * 2 ^ 24 < 2147483648
        ∧ (32 - 1) + IsRelu * 2 ^ 8 + BiasShift * 2 ^ 16 + AccumShift * 2 ^ 20
            + AccumMul * 2 ^ 24 < 2147483648)
    ∧ config_data &&& 0xFF = 31
    ∧ (config_data >>> 8) &&& 1 = IsRelu.toNat
    ∧ (config_data >>> 16) &&& 0xF = BiasShift.toNat
    ∧ (config_data >>> 20) &&& 0xF = AccumShift.toNat
    ∧ config_data >>> 24 = AccumMul.toNat
    ∧ (IsRelu.toNat = 1 ∧ BiasShift.toNat = 6 ∧ AccumShift.toNat = 10
        ∧ AccumMul.toNat = 93) := by
  refine ⟨?_, by decide, by decide, by decide, by decide, by decide, by decide, by decide,
    by decide, by decide, by decide, by decide⟩
  rw [writes_to_main]; rfl

/-! ## C3 -/

theorem mismatch_count_eq_zero_iff (out_len : Nat) (out gold : Int → Int) :
    mismatch_count out_len out gold = 0
      ↔ ∀ j : Nat, j < out_len → out (j : Int) = gold (j : Int) := by
  unfold mismatch_count
  rw [Finset.card_eq_zero, Finset.filter_eq_empty_iff]
  constructor
  · intro h j hj
    exact not_not.mp (h (Finset.mem_range.mpr hj))
  · intro h j hj
    exact not_not.mpr (h j (Finset.mem_range.mp hj))

/-- The `errors` of `main`, the count returned by `validate_buf` converted back to
`unsigned`, is the number of mismatches in the output region. -/
theorem main_errors (mem gold : Int → Int) :
    u32 (validate_buf 1024 (fun j => mem (2080 + j)) gold).ret
      = mismatch_count 1024 (fun j => mem (2080 + j)) gold := by
  have hle := mismatch_count_le 1024 (fun j => mem (2080 + j)) gold
  rw [validate_buf_small 1024 (fun j => mem (2080 + j)) gold (by omega)]
  exact u32_i32_natCast _ (by omega)

theorem pass_mem_main (P : Platform) (A : Nat) (mem gold : Int → Int) :
    Event.printf_pass ∈ main P A mem gold
      ↔ mismatch_count 1024 (fun j => mem (2080 + j)) gold = 0 := by
  rw [main_eq, ← main_errors]
  by_cases h : u32 (validate_buf 1024 (fun j => mem (2080 + j)) gold).ret = 0
  · simp [h]
  · simp [h]

theorem fail_mem_main (P : Platform) (A : Nat) (mem gold : Int → Int) :
    Event.printf_fail ∈ main P A mem gold
      ↔ mismatch_count 1024 (fun j => mem (2080 + j)) gold ≠ 0 := by
  rw [main_eq, ← main_errors]
  by_cases h : u32 (validate_buf 1024 (fun j => mem (2080 + j)) gold).ret = 0
  · simp [h]
  · simp [h]

/-- C3: for every content of `mem` and of `gold` when `validate_buf` is called, `main`
reports PASS if and only if `mem[out_offset + j] == gold[j]` for every `j` below 1024,
with `out_offset = 2080` and `out_len = 1024`, and reports FAIL if and only if one of
those 1024 positions differs; contents that agree on these positions give the same
verdict. -/
theorem main_verdict (P : Platform) (A : Nat) (mem gold : Int → Int) :
    main_layout.out_offset = 2080 ∧ main_layout.out_len = 1024
    ∧ (Event.printf_pass ∈ main P A mem gold
        ↔ ∀ j : Nat, j < 1024 → mem (2080 + (j : Int)) = gold (j : Int))
    ∧ (Event.printf_fail ∈ main P A mem gold
        ↔ ∃ j : Nat, j < 1024 ∧ mem (2080 + (j : Int)) ≠ gold (j : Int))
    ∧ ∀ mem2 gold2 : Int → Int,
        (∀ j : Nat, j < 1024 →
          mem2 (2080 + (j : Int)) = mem (2080 + (j : Int)) ∧ gold2 (j : Int) = gold (j : Int)) →
        (Event.printf_pass ∈ main P A mem2 gold2 ↔ Event.printf_pass ∈ main P A mem gold)
        ∧ (Event.printf_fail ∈ main P A mem2 gold2
            ↔ Event.printf_fail ∈ main P A mem gold) := by
  refine ⟨by decide, by decide, ?_, ?_, ?_⟩
  · rw [pass_mem_main, mismatch_count_eq_zero_iff]
  · rw [fail_mem_main, ne_eq, mismatch_count_eq_zero_iff]
    push_neg
    rfl
  · intro mem2 gold2 h
    have hc := mismatch_count_congr 1024 (fun j => mem (2080 + j)) gold
      (fun j => mem2 (2080 + j)) gold2 h
    rw [pass_mem_main, pass_mem_main, fail_mem_main, fail_mem_main, hc]
    exact ⟨Iff.rfl, Iff.rfl⟩

/-! ## CPU_multiply: the loops -/

/-- A loop with guard `c < bound` for an `int` bound that is not negative runs its body at
`0, …, bound - 1` and is left with the counter at `bound`. -/
theorem forLoop_lt {σ : Type} (body : Int → σ → σ) (bound : Int) (h0 : 0 ≤ bound)
    (h1 : bound < 2147483648) (s : σ) :
    forLoop (fun c => decide (c < bound)) body bound.toNat 0 s
      = (bound, (List.range bound.toNat).foldl (fun s (n : Nat) => body (n : Int) s) s) := by
  have hT : ∀ n : Nat, n < bound.toNat →
      (fun c : Int => decide (c < bound)) (i32 (n : Int)) = true := by
    intro n hn
    simp only [decide_eq_true_eq]
    rw [i32_of_range (n : Int) (by omega) (by omega)]
    omega
  have hF : (fun c : Int => decide (c < bound)) (i32 (bound.toNat : Int)) = false := by
    simp only [decide_eq_false_iff_not]
    rw [i32_of_range (bound.toNat : Int) (by omega) (by omega)]
    omega
  have h := forLoop_range (fun c : Int => decide (c < bound)) body bound.toNat bound.toNat
    hT hF (le_refl _) s
  have hf : (List.range bound.toNat).foldl (fun s (n : Nat) => body (i32 (n : Int)) s) s
      = (List.range bound.toNat).foldl (fun s (n : Nat) => body (n : Int) s) s := by
    apply List.foldl_ext
    intro s n hn
    have hn2 : n < bound.toNat := List.mem_range.mp hn
    rw [i32_of_range (n : Int) (by omega) (by omega)]
  rw [h, hf, i32_of_range (bound.toNat : Int) (by omega) (by omega), Int.toNat_of_nonneg h0]

/-- What a loop leaves untouched in each round it leaves untouched altogether. -/
theorem forLoop_preserves {σ : Type} (cond : Int → Bool) (body : Int → σ → σ)
    (Q : σ → Prop) (hbody : ∀ c s, Q s → Q (body c s)) :
    ∀ (fuel : Nat) (c : Int) (s : σ), Q s → Q (forLoop cond body fuel c s).2 := by
  intro fuel
  induction fuel with
  | zero => intro c s hs; exact hs
  | succ fuel ih =>
    intro c s hs
    rw [forLoop]
    by_cases hc : cond c = true
    · rw [if_pos hc]; exact ih _ _ (hbody c s hs)
    · rw [if_neg hc]; exact hs

theorem index_bound (i n m k B : Int) (hi0 : 0 ≤ i) (hi : i < n) (hk0 : 0 ≤ k) (hk : k < m)
    (hB : n * m ≤ B) : 0 ≤ i * m + k ∧ i * m + k < B := by
  have h1 : 0 ≤ i * m := mul_nonneg hi0 (by omega)
  have h2 : (i + 1) * m ≤ n * m := mul_le_mul_of_nonneg_right (by omega) (by omega)
  have h3 : (i + 1) * m = i * m + m := by ring
  omega

theorem sum_fold (f : Nat → Int) (n : Nat) :
    (List.range n).foldl (fun sum (k : Nat) => i32 (sum + i32 (f k))) 0
      = i32 (∑ k in Finset.range n, f k) := by
  induction n with
  | zero => simp only [List.range_zero, List.foldl_nil, Finset.range_zero, Finset.sum_empty]; decide
  | succ n ih =>
    rw [List.range_succ, List.foldl_append, ih, Finset.sum_range_succ]
    simp only [List.foldl_cons, List.foldl_nil]
    exact i32_i32_add_i32 _ _

theorem update_fold_other (idx : Nat → Int) (val : Nat → Int) (d : Int → Int) (x : Int) :
    ∀ n : Nat, (∀ k : Nat, k < n → idx k ≠ x) →
      (List.range n).foldl (fun d (k : Nat) => Function.update d (idx k) (val k)) d x = d x := by
  intro n
  induction n with
  | zero => intro _; rfl
  | succ n ih =>
    intro h
    rw [List.range_succ, List.foldl_append]
    simp only [List.foldl_cons, List.foldl_nil]
    rw [Function.update_noteq (h n (by omega)).symm, ih (fun k hk => h k (by omega))]

theorem update_fold_at (idx : Nat → Int) (val : Nat → Int) (d : Int → Int)
    (hinj : ∀ k l : Nat, idx k = idx l → k = l) :
    ∀ n k : Nat, k < n →
      (List.range n).foldl (fun d (k : Nat) => Function.update d (idx k) (val k)) d (idx k)
        = val k := by
  intro n
  induction n with
  | zero => intro k hk; omega
  | succ n ih =>
    intro k hk
    rw [List.range_succ, List.foldl_append]
    simp only [List.foldl_cons, List.foldl_nil]
    by_cases hkn : k = n
    · subst hkn
      exact Function.update_same _ _ _
    · have hne : idx k ≠ idx n := fun e => hkn (hinj k n e)
      rw [Function.update_noteq hne, ih k (by omega)]

theorem CPU_dot_loop_eq (a b : Int → Int) (N0 M_mat N1 i j : Int)
    (hM0 : 0 ≤ M_mat) (hM : M_mat < 2147483648)
    (hi0 : 0 ≤ i) (hi : i < N0) (hj0 : 0 ≤ j) (hj : j < N1)
    (hA : N0 * M_mat ≤ 2147483648) (hB : M_mat * N1 ≤ 2147483648) :
    CPU_dot_loop a b M_mat N1 i j = (M_mat, matrix_product_entry a b M_mat N1 i j) := by
  unfold CPU_dot_loop matrix_product_entry
  rw [forLoop_lt _ M_mat hM0 hM, ← sum_fold]
  have hf : (List.range M_mat.toNat).foldl
        (fun sum (n : Nat) => i32 (sum + i32 (a (i32 (i32 (i * M_mat) + (n : Int)))
          * b (i32 (i32 ((n : Int) * N1) + j))))) 0
      = (List.range M_mat.toNat).foldl
        (fun sum (k : Nat) => i32 (sum + i32 (a (i * M_mat + (k : Int))
          * b ((k : Int) * N1 + j)))) 0 := by
    apply List.foldl_ext
    intro s n hn
    have hn2 : n < M_mat.toNat := List.mem_range.mp hn
    have ha := index_bound i N0 M_mat (n : Int) 2147483648 hi0 hi (by omega) (by omega) hA
    have hb := index_bound (n : Int) M_mat N1 j 2147483648 (by omega) (by omega) hj0 hj hB
    rw [i32_i32_add (i * M_mat), i32_i32_add ((n : Int) * N1),
      i32_of_range (i * M_mat + (n : Int)) (by omega) (by omega),
      i32_of_range ((n : Int) * N1 + j) (by omega) (by omega)]
  rw [hf]

theorem CPU_row_loop_eq (a b : Int → Int) (N0 M_mat N1 i : Int) (d : Int → Int)
    (hM0 : 0 ≤ M_mat) (hM : M_mat < 2147483648) (hN0 : 0 ≤ N1) (hN : N1 < 2147483648)
    (hi0 : 0 ≤ i) (hi : i < N0)
    (hA : N0 * M_mat ≤ 2147483648) (hB : M_mat * N1 ≤ 2147483648)
    (hD : N0 * N1 ≤ 2147483648) :
    CPU_row_loop a b M_mat N1 i d
      = (N1, (List.range N1.toNat).foldl
          (fun d (n : Nat) => Function.update d (i * N1 + (n : Int))
            (matrix_product_entry a b M_mat N1 i (n : Int))) d) := by
  unfold CPU_row_loop
  rw [forLoop_lt _ N1 hN0 hN]
  have hf : (List.range N1.toNat).foldl
        (fun d (n : Nat) => Function.update d (i32 (i32 (i * N1) + (n : Int)))
          (CPU_dot_loop a b M_mat N1 i (n : Int)).2) d
      = (List.range N1.toNat).foldl
        (fun d (n : Nat) => Function.update d (i * N1 + (n : Int))
          (matrix_product_entry a b M_mat N1 i (n : Int))) d := by
    apply List.foldl_ext
    intro s n hn
    have hn2 : n < N1.toNat := List.mem_range.mp hn
    have hd := index_bound i N0 N1 (n : Int) 2147483648 hi0 hi (by omega) (by omega) hD
    rw [CPU_dot_loop_eq a b N0 M_mat N1 i (n : Int) hM0 hM hi0 hi (by omega) (by omega) hA hB,
      i32_i32_add (i * N1), i32_of_range (i * N1 + (n : Int)) (by omega) (by omega)]
  rw [hf]

theorem CPU_row_at (a b : Int → Int) (N0 M_mat N1 i : Int) (d : Int → Int)
    (hM0 : 0 ≤ M_mat) (hM : M_mat < 2147483648) (hN0 : 0 ≤ N1) (hN : N1 < 2147483648)
    (hi0 : 0 ≤ i) (hi : i < N0)
    (hA : N0 * M_mat ≤ 2147483648) (hB : M_mat * N1 ≤ 2147483648)
    (hD : N0 * N1 ≤ 2147483648) (j : Nat) (hj : (j : Int) < N1) :
    (CPU_row_loop a b M_mat N1 i d).2 (i * N1 + (j : Int))
      = matrix_product_entry a b M_mat N1 i (j : Int) := by
  rw [CPU_row_loop_eq a b N0 M_mat N1 i d hM0 hM hN0 hN hi0 hi hA hB hD]
  exact update_fold_at (fun n : Nat => i * N1 + (n : Int))
    (fun n : Nat => matrix_product_entry a b M_mat N1 i (n : Int)) d
    (fun k l h => by
      have h2 : i * N1 + (k : Int) = i * N1 + (l : Int) := h
      omega) N1.toNat j (by omega)

theorem CPU_row_other (a b : Int → Int) (N0 M_mat N1 i : Int) (d : Int → Int)
    (hM0 : 0 ≤ M_mat) (hM : M_mat < 2147483648) (hN0 : 0 ≤ N1) (hN : N1 < 2147483648)
    (hi0 : 0 ≤ i) (hi : i < N0)
    (hA : N0 * M_mat ≤ 2147483648) (hB : M_mat * N1 ≤ 2147483648)
    (hD : N0 * N1 ≤ 2147483648) (x : Int) (hx : x < i * N1 ∨ (i + 1) * N1 ≤ x) :
    (CPU_row_loop a b M_mat N1 i d).2 x = d x := by
  rw [CPU_row_loop_eq a b N0 M_mat N1 i d hM0 hM hN0 hN hi0 hi hA hB hD]
  apply update_fold_other
  intro k hk
  have h3 : (i + 1) * N1 = i * N1 + N1 := by ring
  omega

theorem CPU_rows_fold (a b : Int → Int) (N0 M_mat N1 : Int) (d : Int → Int)
    (hM0 : 0 ≤ M_mat) (hM : M_mat < 2147483648) (hN0 : 0 ≤ N1) (hN : N1 < 2147483648)
    (hA : N0 * M_mat ≤ 2147483648) (hB : M_mat * N1 ≤ 2147483648)
    (hD : N0 * N1 ≤ 2147483648) :
    ∀ n : Nat, (n : Int) ≤ N0 → ∀ i j : Nat, i < n → (j : Int) < N1 →
      (List.range n).foldl (fun d (r : Nat) => (CPU_row_loop a b M_mat N1 (r : Int) d).2) d
          ((i : Int) * N1 + (j : Int))
        = matrix_product_entry a b M_mat N1 (i : Int) (j : Int) := by
  intro n
  induction n with
  | zero => intro _ i j hi; omega
  | succ n ih =>
    intro hn i j hi hj
    rw [List.range_succ, List.foldl_append]
    simp only [List.foldl_cons, List.foldl_nil]
    have hn1 : ((n : Nat) : Int) < N0 := by omega
    by_cases hin : i = n
    · subst hin
      exact CPU_row_at a b N0 M_mat N1 (i : Int) _ hM0 hM hN0 hN (by omega) hn1 hA hB hD j hj
    · have hlt : i < n := by omega
      have hb := index_bound (i : Int) (n : Int) N1 (j : Int) ((n : Int) * N1)
        (by omega) (by omega) (by omega) hj (le_refl _)
      rw [CPU_row_other a b N0 M_mat N1 (n : Int) _ hM0 hM hN0 hN (by omega) hn1 hA hB hD _
        (Or.inl hb.2)]
      exact ih (by omega) i j hlt hj

/-- What `CPU_multiply` stores when no index leaves the range of `int`: the outer loop is
left with `i = N0`, and entry `(i, j)` of `d` holds entry `(i, j)` of the product. -/
theorem CPU_multiply_loop_eq (a b : Int → Int) (N0 M_mat N1 : Int) (d : Int → Int)
    (h0 : 0 ≤ N0) (h0lt : N0 < 2147483648)
    (hM0 : 0 ≤ M_mat) (hM : M_mat < 2147483648) (hN0 : 0 ≤ N1) (hN : N1 < 2147483648)
    (hA : N0 * M_mat ≤ 2147483648) (hB : M_mat * N1 ≤ 2147483648)
    (hD : N0 * N1 ≤ 2147483648) :
    (CPU_multiply_loop a b N0 M_mat N1 d).1 = N0
    ∧ ∀ i j : Int, 0 ≤ i → i < N0 → 0 ≤ j → j < N1 →
        (CPU_multiply_loop a b N0 M_mat N1 d).2 (i * N1 + j)
          = matrix_product_entry a b M_mat N1 i j := by
  unfold CPU_multiply_loop
  rw [forLoop_lt _ N0 h0 h0lt]
  refine ⟨rfl, ?_⟩
  intro i j hi0 hi hj0 hj
  have h := CPU_rows_fold a b N0 M_mat N1 d hM0 hM hN0 hN hA hB hD N0.toNat (by omega)
    i.toNat j.toNat (by omega) (by omega)
  rw [Int.toNat_of_nonneg hi0, Int.toNat_of_nonneg hj0] at h
  exact h

theorem fill_ones_apply (n : Int) (m : Int → Int) (hn0 : 0 ≤ n) (hn : n < 2147483648)
    (x : Int) (hx0 : 0 ≤ x) (hx : x < n) : fill_ones n m x = 1 := by
  unfold fill_ones
  rw [forLoop_lt _ n hn0 hn]
  have h := update_fold_at (fun k : Nat => (k : Int)) (fun _ => 1) m
    (fun k l h => by
      have h2 : (k : Int) = (l : Int) := h
      omega) n.toNat x.toNat (by omega)
  simp only [] at h
  rw [Int.toNat_of_nonneg hx0] at h
  exact h

/-- `CPU_multiply` stores only at indices in the range of `int`. -/
theorem CPU_multiply_outside (a b : Int → Int) (N0 M_mat N1 : Int) (d : Int → Int) (x : Int)
    (hx : x < -2147483648 ∨ 2147483648 ≤ x) :
    CPU_multiply a b N0 M_mat N1 d x = d x := by
  unfold CPU_multiply CPU_multiply_loop
  apply forLoop_preserves _ _ (fun e : Int → Int => e x = d x) _ _ _ _ rfl
  intro i e he
  unfold CPU_row_loop
  apply forLoop_preserves _ _ (fun e : Int → Int => e x = d x) _ _ _ _ he
  intro j e2 he2
  have hr := i32_range (i32 (i * N1) + j)
  have hne : x ≠ i32 (i32 (i * N1) + j) := by omega
  show Function.update e2 (i32 (i32 (i * N1) + j)) _ x = d x
  rw [Function.update_noteq hne]
  exact he2

theorem cpu_matmul_apply (mat1 mat2 output : Int → Int) (idx : Int)
    (h0 : 0 ≤ idx) (h1 : idx < 1024) : cpu_matmul mat1 mat2 output idx = 32 := by
  have hsz : i32 (32 * 32) = 1024 := by decide
  unfold cpu_matmul CPU_multiply
  simp only [hsz]
  have hspec := (CPU_multiply_loop_eq (fill_ones 1024 mat1) (fill_ones 1024 mat2) 32 32 32 output
    (by omega) (by omega) (by omega) (by omega) (by omega) (by omega)
    (by norm_num) (by norm_num) (by norm_num)).2 (idx / 32) (idx % 32)
    (by omega) (by omega) (by omega) (by omega)
  have hidx : idx / 32 * 32 + idx % 32 = idx := by omega
  rw [hidx] at hspec
  rw [hspec]
  unfold matrix_product_entry
  have hsum : ∑ k in Finset.range (32 : Int).toNat,
        fill_ones 1024 mat1 (idx / 32 * 32 + (k : Int))
          * fill_ones 1024 mat2 ((k : Int) * 32 + idx % 32)
      = ∑ _k in Finset.range (32 : Int).toNat, (1 : Int) := by
    apply Finset.sum_congr rfl
    intro k hk
    have hk2 : k < 32 := by
      have := Finset.mem_range.mp hk
      simpa using this
    rw [fill_ones_apply 1024 mat1 (by omega) (by omega) _ (by omega) (by omega),
      fill_ones_apply 1024 mat2 (by omega) (by omega) _ (by omega) (by omega)]
    rfl
  rw [hsum]
  simp only [Finset.sum_const, Finset.card_range]
  decide

/-! ## C1 -/

/-- C1, counterexample: with `N0 = N1 = 65536` and `M_mat = 0` the entry of `d` for
`i = 32768` and `j = 0`, at index `i * N1 + j = 2^31`, is not the empty sum `0`: it keeps
the value it had before the call, because `i * N1 + j` is computed in `int`. -/
theorem CPU_multiply_index_wraps :
    ((0 : Int) ≤ 32768 ∧ (32768 : Int) < 65536 ∧ (0 : Int) ≤ 0 ∧ (0 : Int) < 65536)
    ∧ CPU_multiply all_zero all_zero 65536 0 65536 all_one (32768 * 65536 + 0) = 1
    ∧ matrix_product_entry all_zero all_zero 0 65536 32768 0 = 0 := by
  refine ⟨by decide, ?_, by decide⟩
  rw [CPU_multiply_outside all_zero all_zero 65536 0 65536 all_one (32768 * 65536 + 0)
    (Or.inr (by decide))]
  rfl

/-- C1, amended: for all `N0, M_mat, N1 >= 0` such that `N0 * M_mat`, `M_mat * N1` and
`N0 * N1` are at most `2^31`, so that every index `i * M_mat + k`, `k * N1 + j` and
`i * N1 + j` fits in `int`, and for all row-major `a`, `b` and an output `d` that overlaps
neither, the three loops of `CPU_multiply(a, b, N0, M_mat, N1, d)` are left through their
guards, so the call returns, and afterwards each `d[i*N1 + j]` with `0 <= i < N0` and
`0 <= j < N1` is the sum over `k < M_mat` of `a[i*M_mat + k] * b[k*N1 + j]` in 32-bit
wrap-around arithmetic.  In `cpu_matmul`, with `N0 = M_mat = N1 = 32` and both inputs
filled with 1, each of the 1024 entries is 32. -/
theorem CPU_multiply_computes_product :
    (∀ (a b d : Int → Int) (N0 M_mat N1 : Int),
      0 ≤ N0 → N0 < 2147483648 → 0 ≤ M_mat → M_mat < 2147483648 →
      0 ≤ N1 → N1 < 2147483648 →
      N0 * M_mat ≤ 2147483648 → M_mat * N1 ≤ 2147483648 → N0 * N1 ≤ 2147483648 →
        (CPU_multiply_loop a b N0 M_mat N1 d).1 = N0
        ∧ (∀ (i : Int) (e : Int → Int), 0 ≤ i → i < N0 →
            (CPU_row_loop a b M_mat N1 i e).1 = N1)
        ∧ (∀ i j : Int, 0 ≤ i → i < N0 → 0 ≤ j → j < N1 →
            (CPU_dot_loop a b M_mat N1 i j).1 = M_mat)
        ∧ ∀ i j : Int, 0 ≤ i → i < N0 → 0 ≤ j → j < N1 →
            CPU_multiply a b N0 M_mat N1 d (i * N1 + j)
              = matrix_product_entry a b M_mat N1 i j)
    ∧ (∀ (mat1 mat2 output : Int → Int) (idx : Int), 0 ≤ idx → idx < 1024 →
        cpu_matmul mat1 mat2 output idx = 32) := by
  refine ⟨?_, cpu_matmul_apply⟩
  intro a b d N0 M_mat N1 h0 h0lt hM0 hM hN0 hN hA hB hD
  have h := CPU_multiply_loop_eq a b N0 M_mat N1 d h0 h0lt hM0 hM hN0 hN hA hB hD
  refine ⟨h.1, ?_, ?_, h.2⟩
  · intro i e hi0 hi
    rw [CPU_row_loop_eq a b N0 M_mat N1 i e hM0 hM hN0 hN hi0 hi hA hB hD]
  · intro i j hi0 hi hj0 hj
    rw [CPU_dot_loop_eq a b N0 M_mat N1 i j hM0 hM hi0 hi hj0 hj hA hB]

/-- C1, the amended claim at two 2 × 2 matrices. -/
theorem CPU_multiply_computes_product_witness :
    ((0 : Int) ≤ 2 ∧ (2 : Int) < 2147483648 ∧ (2 : Int) * 2 ≤ 2147483648)
    ∧ ((CPU_multiply_loop sample_out sample_gold 2 2 2 all_zero).1 = 2
        ∧ (∀ (i : Int) (e : Int → Int), 0 ≤ i → i < 2 →
            (CPU_row_loop sample_out sample_gold 2 2 i e).1 = 2)
        ∧ (∀ i j : Int, 0 ≤ i → i < 2 → 0 ≤ j → j < 2 →
            (CPU_dot_loop sample_out sample_gold 2 2 i j).1 = 2)
        ∧ ∀ i j : Int, 0 ≤ i → i < 2 → 0 ≤ j → j < 2 →
            CPU_multiply sample_out sample_gold 2 2 2 all_zero (i * 2 + j)
              = matrix_product_entry sample_out sample_gold 2 2 i j)
    ∧ CPU_multiply sample_out sample_gold 2 2 2 all_zero 3 = 11 :=
  ⟨by decide,
    CPU_multiply_computes_product.1 sample_out sample_gold all_zero 2 2 2
      (by decide) (by decide) (by decide) (by decide) (by decide) (by decide)
      (by decide) (by decide) (by decide),
    by decide⟩

end Sysarray
